import Mathlib

/-!
Shallow embedding of src/turnstile.cpp and src/turnstile.h: class Mutex, a
striped turnstile-based mutual-exclusion lock, together with its private
struct turnstile.

Modelling choices.  Pointers to native objects (std::mutex, each
std::condition_variable) become Option Nat ids, none standing for nullptr.
The tagged reference Mutex::p_turnstile has three states and becomes the
inductive TRef (null / gate / heap a).  The heap of dynamically allocated
turnstiles is an association list from ids to turnstile states, with a
counter handing out fresh ids for every allocation.  Every primitive side
effect of the C++ code (locking or unlocking the stripe mutex, locking the
internal mutex, incrementing cnt_waiting, notify_one, allocation, delete,
the throw) is appended to an event trace, so that ordering claims of the
specification are provable from the trace.

The blocking call cv->wait(lck, pred) inside go_through splits the function
at the suspension point: goThroughPrelude is everything up to the block,
waitPred is the predicate lambda re-evaluated on every wakeup, and
goThroughExit is everything after the wait returns.  Mutex::lock therefore
ends either in LockOutcome.acquiredFast or in LockOutcome.blocked r.

A result of none marks undefined behaviour (dereferencing a null internal
pointer, delete of a non-heap object, a dangling p_turnstile) or an
execution that can never proceed in a single-thread run (acquiring a stripe
mutex that is already locked and that nobody else can release).

cnt_waiting is a uint64_t in the source, so increments and decrements are
taken modulo 2 ^ 64.
-/

namespace Turnstiles

/-- The three states of the tagged reference Mutex::p_turnstile
(src/turnstile.h lines 10 to 17): nullptr, the static gate_turnstile, or a
dynamically allocated turnstile with heap id a. -/
inductive TRef where
  | null
  | gate
  | heap (a : Nat)
  deriving DecidableEq

/-- Primitive side effects of the C++ code, recorded in execution order. -/
inductive Ev where
  | lockStripe (mid : Nat)
  | unlockStripe (mid : Nat)
  | lockInternal (m : Nat)
  | unlockInternal (m : Nat)
  | incrWaiting (r : TRef)
  | setWaitFalse (r : TRef)
  | notifyOne (c : Nat)
  | cvBlock (c : Nat)
  | allocNativeMutex (m : Nat)
  | allocCondVar (c : Nat)
  | allocTurnstile (a : Nat)
  | freeNativeMutex (m : Nat)
  | freeCondVar (c : Nat)
  | deleteTurnstile (r : TRef)
  | throwErr
  deriving DecidableEq

/-- State of one struct Mutex::turnstile (src/turnstile.cpp lines 17 to 22):
cnt_waiting is the uint64_t waiter count, cv_m and cv the owned pointers to
the internal native mutex and condition variable (none = nullptr), wait the
flag telling waiters to keep sleeping. -/
structure TState where
  cnt_waiting : Nat
  cv_m : Option Nat
  cv : Option Nat
  wait : Bool
  deriving DecidableEq

/-- cnt_waiting is a uint64_t. -/
def U64MOD : Nat := 2 ^ 64

/-- uint64_t increment. -/
def incr64 (n : Nat) : Nat := (n + 1) % U64MOD

/-- uint64_t decrement (wraps at zero, like the source). -/
def decr64 (n : Nat) : Nat := (n + (U64MOD - 1)) % U64MOD

/-- The default constructor turnstile() (line 23): empty turnstile, null
internal pointers.  This is how the static gate_turnstile is built. -/
def turnstileDefault : TState :=
  { cnt_waiting := 0, cv_m := none, cv := none, wait := true }

/-- The two-argument constructor turnstile(std::mutex*, std::condition_variable*)
(lines 28 to 29). -/
def turnstileMk (m c : Nat) : TState :=
  { cnt_waiting := 0, cv_m := some m, cv := some c, wait := true }

/-- bool empty() (line 74). -/
def turnstileEmpty (t : TState) : Bool := t.cnt_waiting == 0

/-- bool canDropAfterSpin() (line 76). -/
def canDropAfterSpin (t : TState) : Bool := t.cnt_waiting == 1

/-- Association-list lookup for the heap of dynamically allocated
turnstiles. -/
def heapGet : List (Nat × TState) → Nat → Option TState
  | [], _ => none
  | (b, t) :: h, a => if a = b then some t else heapGet h a

/-- Overwrite the turnstile stored at an existing heap id. -/
def heapSet : List (Nat × TState) → Nat → TState → List (Nat × TState)
  | [], _, _ => []
  | (b, u) :: h, a, t => if a = b then (b, t) :: h else (b, u) :: heapSet h a t

/-- Remove (delete) the turnstile stored at a heap id. -/
def heapDel : List (Nat × TState) → Nat → List (Nat × TState)
  | [], _ => []
  | (b, u) :: h, a => if a = b then h else (b, u) :: heapDel h a

/-- Whole-program state seen by one Mutex: its tagged reference, the state
of the static gate_turnstile, the heap of dynamic turnstiles, whether the
stripe mutex assigned to this Mutex is locked, the allocator counter for
fresh ids, and the event trace. -/
structure MState where
  p_turnstile : TRef
  gateT : TState
  heapT : List (Nat × TState)
  stripeLocked : Bool
  nextId : Nat
  trace : List Ev
  deriving DecidableEq

/-- Append one event to the trace. -/
def emit (s : MState) (e : Ev) : MState :=
  { s with trace := s.trace ++ [e] }

/-- Dereference a TRef to the turnstile state it designates. -/
def getT (s : MState) : TRef → Option TState
  | TRef.null => none
  | TRef.gate => some s.gateT
  | TRef.heap a => heapGet s.heapT a

/-- Store back the turnstile state a TRef designates.  Never invoked with
TRef.null on any path of the source; left as the identity there. -/
def setT (s : MState) : TRef → TState → MState
  | TRef.null, _ => s
  | TRef.gate, t => { s with gateT := t }
  | TRef.heap a, t => { s with heapT := heapSet s.heapT a t }

/-- Mutex::Mutex() (line 90) together with the initial global state: tagged
reference nullptr, static gate_turnstile default-constructed, no dynamic
turnstile, stripe free, empty trace. -/
def mutexInit : MState :=
  { p_turnstile := TRef.null, gateT := turnstileDefault, heapT := [],
    stripeLocked := false, nextId := 0, trace := [] }

/-- The prelude of void go_through(uintptr_t) (lines 40 to 45), everything
up to the suspension inside cv->wait: construct the unique_lock over *cv_m
(acquiring the internal mutex), increment cnt_waiting, release the stripe
mutex, then block on *cv.  none on undefined behaviour (dangling reference
or null internal pointer). -/
def goThroughPrelude (mid : Nat) (r : TRef) (s : MState) : Option MState :=
  match getT s r with
  | none => none
  | some t =>
    match t.cv_m, t.cv with
    | some m, some c =>
      let s1 := emit s (Ev.lockInternal m)
      let s2 := setT s1 r { t with cnt_waiting := incr64 t.cnt_waiting }
      let s3 := emit s2 (Ev.incrWaiting r)
      let s4 := emit { s3 with stripeLocked := false } (Ev.unlockStripe mid)
      some (emit s4 (Ev.cvBlock c))
    | _, _ => none

/-- The predicate lambda passed to cv->wait (lines 47 to 56), evaluated
with the internal mutex held on every (possibly spurious) wakeup: if wait
is false, decrement cnt_waiting, set wait back to true and stop waiting;
otherwise keep waiting and change nothing. -/
def waitPred (t : TState) : Bool × TState :=
  if !t.wait then
    (true, { t with cnt_waiting := decr64 t.cnt_waiting, wait := true })
  else
    (false, t)

/-- ~turnstile() (lines 78 to 81): delete cv_m; delete cv.  Deleting a null
pointer is a no-op. -/
def destroyTurnstile (t : TState) (s : MState) : MState :=
  let s1 := match t.cv_m with
    | some m => emit s (Ev.freeNativeMutex m)
    | none => s
  match t.cv with
  | some c => emit s1 (Ev.freeCondVar c)
  | none => s1

/-- The tail of go_through (lines 58 to 62), run after cv->wait returns
with the internal mutex held and the predicate satisfied: if empty(),
unlock the internal mutex and delete this (running the destructor);
otherwise the unique_lock destructor unlocks the internal mutex and the
turnstile survives.  none on undefined behaviour (delete of a non-heap
object, dangling reference, null internal mutex). -/
def goThroughExit (r : TRef) (s : MState) : Option MState :=
  match getT s r with
  | none => none
  | some t =>
    match t.cv_m with
    | none => none
    | some m =>
      if turnstileEmpty t then
        match r with
        | TRef.heap a =>
          let s1 := emit s (Ev.unlockInternal m)
          let s2 := emit { s1 with heapT := heapDel s1.heapT a }
                      (Ev.deleteTurnstile r)
          some (destroyTurnstile t s2)
        | _ => none
      else
        some (emit s (Ev.unlockInternal m))

/-- void spin() (lines 68 to 72): acquire the internal mutex, set wait to
false, notify_one on the condition variable, release the internal mutex. -/
def spin (r : TRef) (s : MState) : Option MState :=
  match getT s r with
  | none => none
  | some t =>
    match t.cv_m, t.cv with
    | some m, some c =>
      let s1 := emit s (Ev.lockInternal m)
      let s2 := emit (setT s1 r { t with wait := false }) (Ev.setWaitFalse r)
      let s3 := emit s2 (Ev.notifyOne c)
      some (emit s3 (Ev.unlockInternal m))
    | _, _ => none

/-- How a run of Mutex::lock ends: returned without ever entering a
turnstile, or suspended inside go_through on the turnstile r. -/
inductive LockOutcome where
  | acquiredFast
  | blocked (r : TRef)
  deriving DecidableEq

/-- void Mutex::lock() (lines 104 to 118), up to the suspension point.
Acquire the stripe mutex (none if it is already locked: in a single-thread
run nobody can ever release it).  If p_turnstile is nullptr, set it to the
gate and release the stripe.  Otherwise, if it is the gate, allocate a new
std::mutex, a new std::condition_variable and a new turnstile over them and
install it; then go_through the pointed-to turnstile. -/
def lock (mid : Nat) (s0 : MState) : Option (MState × LockOutcome) :=
  if s0.stripeLocked then none
  else
    let s := emit { s0 with stripeLocked := true } (Ev.lockStripe mid)
    match s.p_turnstile with
    | TRef.null =>
      let s1 := { s with p_turnstile := TRef.gate, stripeLocked := false }
      some (emit s1 (Ev.unlockStripe mid), LockOutcome.acquiredFast)
    | TRef.gate =>
      let m := s.nextId
      let c := s.nextId + 1
      let a := s.nextId + 2
      let sA := emit (emit s (Ev.allocNativeMutex m)) (Ev.allocCondVar c)
      let sA2 := { sA with
          heapT := (a, turnstileMk m c) :: sA.heapT
          nextId := s.nextId + 3
          p_turnstile := TRef.heap a }
      let sB := emit sA2 (Ev.allocTurnstile a)
      (goThroughPrelude mid (TRef.heap a) sB).map
        (fun s3 => (s3, LockOutcome.blocked (TRef.heap a)))
    | TRef.heap a =>
      (goThroughPrelude mid (TRef.heap a) s).map
        (fun s3 => (s3, LockOutcome.blocked (TRef.heap a)))

/-- Result of Mutex::unlock: normal return, or the throw of line 138.  The
source throws a string literal; the text plays no role here. -/
inductive UnlockResult where
  | ok
  | protocolError
  deriving DecidableEq

/-- void Mutex::unlock() (lines 133 to 150).  Acquire the stripe mutex
(none if already locked).  If p_turnstile is nullptr, throw: the C++ throw
unwinds through a plain mutex[mutex_id].lock() with no guard object, so the
stripe mutex stays locked.  If it is the gate, set it back to nullptr and
release the stripe.  Otherwise read canDropAfterSpin(), spin() the
turnstile, reset the reference to the gate when canDrop held, and release
the stripe. -/
def unlock (mid : Nat) (s0 : MState) : Option (MState × UnlockResult) :=
  if s0.stripeLocked then none
  else
    let s := emit { s0 with stripeLocked := true } (Ev.lockStripe mid)
    match s.p_turnstile with
    | TRef.null =>
      some (emit s Ev.throwErr, UnlockResult.protocolError)
    | TRef.gate =>
      let s1 := { s with p_turnstile := TRef.null, stripeLocked := false }
      some (emit s1 (Ev.unlockStripe mid), UnlockResult.ok)
    | TRef.heap a =>
      match heapGet s.heapT a with
      | none => none
      | some t =>
        let canDrop := canDropAfterSpin t
        match spin (TRef.heap a) s with
        | none => none
        | some s2 =>
          let s3 := if canDrop then { s2 with p_turnstile := TRef.gate }
                    else s2
          some (emit { s3 with stripeLocked := false } (Ev.unlockStripe mid),
                UnlockResult.ok)

/-! Association-list lemmas for the turnstile heap. -/

theorem heapGet_heapSet_self (h : List (Nat × TState)) (a : Nat) (t t' : TState)
    (hg : heapGet h a = some t) : heapGet (heapSet h a t') a = some t' := by
  induction h with
  | nil => simp [heapGet] at hg
  | cons p h ih =>
    obtain ⟨b, u⟩ := p
    by_cases hab : a = b
    · subst hab
      simp [heapGet, heapSet]
    · simp only [heapGet, heapSet, if_neg hab] at hg ⊢
      exact ih hg

theorem heapGet_heapSet_ne (h : List (Nat × TState)) (a b : Nat) (t' : TState)
    (hne : b ≠ a) : heapGet (heapSet h a t') b = heapGet h b := by
  induction h with
  | nil => simp [heapGet, heapSet]
  | cons p h ih =>
    obtain ⟨k, u⟩ := p
    by_cases hak : a = k
    · subst hak
      simp [heapGet, heapSet, if_neg hne]
    · by_cases hbk : b = k
      · subst hbk
        simp [heapGet, heapSet, if_neg hak]
      · simp only [heapGet, heapSet, if_neg hak, if_neg hbk]
        exact ih

theorem heapSet_keys (h : List (Nat × TState)) (a : Nat) (t' : TState) :
    (heapSet h a t').map Prod.fst = h.map Prod.fst := by
  induction h with
  | nil => simp [heapSet]
  | cons p h ih =>
    obtain ⟨k, u⟩ := p
    by_cases hak : a = k
    · subst hak
      simp [heapSet]
    · simp only [heapSet, if_neg hak, List.map_cons, ih]

theorem heapDel_sublist (h : List (Nat × TState)) (a : Nat) :
    List.Sublist (heapDel h a) h := by
  induction h with
  | nil => simp [heapDel]
  | cons p h ih =>
    obtain ⟨k, u⟩ := p
    by_cases hak : a = k
    · subst hak
      simp only [heapDel, if_pos rfl]
      exact List.sublist_cons_self (a, u) h
    · simp only [heapDel, if_neg hak]
      exact List.Sublist.cons₂ (k, u) ih

theorem heapGet_heapDel_ne (h : List (Nat × TState)) (a b : Nat) (hne : b ≠ a) :
    heapGet (heapDel h a) b = heapGet h b := by
  induction h with
  | nil => simp [heapDel]
  | cons p h ih =>
    obtain ⟨k, u⟩ := p
    by_cases hak : a = k
    · subst hak
      simp [heapDel, heapGet, if_neg hne]
    · by_cases hbk : b = k
      · subst hbk
        simp [heapDel, heapGet, if_neg hak]
      · simp only [heapDel, if_neg hak, heapGet, if_neg hbk]
        exact ih

theorem heapGet_eq_none_of_not_mem (h : List (Nat × TState)) (a : Nat)
    (ha : a ∉ h.map Prod.fst) : heapGet h a = none := by
  induction h with
  | nil => simp [heapGet]
  | cons p h ih =>
    obtain ⟨k, u⟩ := p
    simp only [List.map_cons, List.mem_cons, not_or] at ha
    simp only [heapGet, if_neg ha.1]
    exact ih ha.2

theorem heapGet_heapDel_self (h : List (Nat × TState)) (a : Nat)
    (hnd : (h.map Prod.fst).Nodup) : heapGet (heapDel h a) a = none := by
  induction h with
  | nil => simp [heapDel, heapGet]
  | cons p h ih =>
    obtain ⟨k, u⟩ := p
    simp only [List.map_cons, List.nodup_cons] at hnd
    by_cases hak : a = k
    · subst hak
      simp only [heapDel, if_pos rfl]
      exact heapGet_eq_none_of_not_mem h a hnd.1
    · simp only [heapDel, if_neg hak, heapGet, if_neg hak]
      exact ih hnd.2

/-! Claims. -/

/-- Claim C1: on a Lock whose tagged reference is Unheld (nullptr),
unlock() surfaces the protocol-violation error (the throw of line 138) and
mutates nothing of the Lock: the tagged reference is still nullptr
afterward, the gate turnstile, the heap and the allocator are untouched,
and the trace shows the check fired right after the stripe acquisition,
before any state change.  (The stripe mutex itself is left locked by the
throw; that is the subject of claim C2.) -/
theorem c1_unlock_on_unheld_errors (mid : Nat) (s : MState)
    (hp : s.p_turnstile = TRef.null) (hs : s.stripeLocked = false) :
    (unlock mid s).map
        (fun p => (p.2, p.1.p_turnstile, p.1.gateT, p.1.heapT, p.1.nextId,
                   p.1.trace)) =
      some (UnlockResult.protocolError, TRef.null, s.gateT, s.heapT,
            s.nextId, s.trace ++ [Ev.lockStripe mid, Ev.throwErr]) := by
  simp [unlock, hs, hp, emit]

/-- Witness for C1 at the concrete state of a fresh Mutex. -/
theorem c1_unlock_on_unheld_errors_witness :
    (unlock 0 mutexInit).map
        (fun p => (p.2, p.1.p_turnstile, p.1.gateT, p.1.heapT, p.1.nextId,
                   p.1.trace)) =
      some (UnlockResult.protocolError, TRef.null, mutexInit.gateT,
            mutexInit.heapT, mutexInit.nextId,
            mutexInit.trace ++ [Ev.lockStripe 0, Ev.throwErr]) :=
  c1_unlock_on_unheld_errors 0 mutexInit rfl rfl

/-- The state a fresh Mutex is left in by the failed unlock(): the throw of
line 138 unwinds through the plain mutex[mutex_id].lock() of line 135, so
the stripe mutex is still locked and no unlockStripe event ever happened. -/
def failedUnlockState : MState :=
  { p_turnstile := TRef.null, gateT := turnstileDefault, heapT := [],
    stripeLocked := true, nextId := 0,
    trace := [Ev.lockStripe 0, Ev.throwErr] }

/-- Claim C2 is violated by the code: unlock() on a fresh Mutex raises the
protocol-violation error but does NOT release the stripe mutex it acquired
at entry (line 135 locks it, line 138 throws with no guard object, line 149
is never reached).  The resulting state has the stripe still locked and its
trace holds no unlockStripe event, and afterward every lock() or unlock()
on this Mutex, or on any Mutex sharing the stripe, blocks forever (modelled
as none). -/
theorem c2_unlock_on_unheld_leaks_stripe :
    unlock 0 mutexInit = some (failedUnlockState, UnlockResult.protocolError)
      ∧ failedUnlockState.stripeLocked = true
      ∧ failedUnlockState.trace = [Ev.lockStripe 0, Ev.throwErr]
      ∧ lock 0 failedUnlockState = none
      ∧ unlock 0 failedUnlockState = none :=
  ⟨rfl, rfl, rfl, rfl, rfl⟩

/-- Example state: a Mutex locked once, uncontended (tagged reference on
the gate turnstile). -/
def sSolo : MState := { mutexInit with p_turnstile := TRef.gate }

/-- Example turnstile with one waiter registered. -/
def tEx : TState :=
  { cnt_waiting := 1, cv_m := some 0, cv := some 1, wait := true }

/-- Example turnstile with two waiters registered. -/
def tEx2 : TState :=
  { cnt_waiting := 2, cv_m := some 0, cv := some 1, wait := true }

/-- Example state: a contended Mutex whose tagged reference points at the
dynamic turnstile with heap id 2 holding one waiter. -/
def sQueued : MState :=
  { mutexInit with
    p_turnstile := TRef.heap 2
    heapT := [(2, tEx)]
    nextId := 3 }

/-- Claim C4: on a Lock whose tagged reference is Unheld (nullptr), lock()
sets the reference to the gate turnstile (the HeldSolo sentinel), releases
the stripe and returns.  No turnstile and no native synchronization object
is allocated on this path: the heap, the allocator counter and the gate
state are unchanged and the trace gains only the stripe acquisition and
release. -/
theorem c4_lock_on_unheld_fast (mid : Nat) (s : MState)
    (hp : s.p_turnstile = TRef.null) (hs : s.stripeLocked = false) :
    (lock mid s).map
        (fun p => (p.2, p.1.p_turnstile, p.1.stripeLocked, p.1.gateT,
                   p.1.heapT, p.1.nextId, p.1.trace)) =
      some (LockOutcome.acquiredFast, TRef.gate, false, s.gateT, s.heapT,
            s.nextId, s.trace ++ [Ev.lockStripe mid, Ev.unlockStripe mid]) := by
  simp [lock, hs, hp, emit]

/-- Witness for C4 at the concrete state of a fresh Mutex. -/
theorem c4_lock_on_unheld_fast_witness :
    (lock 0 mutexInit).map
        (fun p => (p.2, p.1.p_turnstile, p.1.stripeLocked, p.1.gateT,
                   p.1.heapT, p.1.nextId, p.1.trace)) =
      some (LockOutcome.acquiredFast, TRef.gate, false, mutexInit.gateT,
            mutexInit.heapT, mutexInit.nextId,
            mutexInit.trace ++ [Ev.lockStripe 0, Ev.unlockStripe 0]) :=
  c4_lock_on_unheld_fast 0 mutexInit rfl rfl

/-- Claim C5: on a Lock whose tagged reference is the gate turnstile (the
HeldSolo sentinel), lock() allocates a fresh std::mutex, a fresh
std::condition_variable and a fresh turnstile owning both, built by the
two-argument constructor with cnt_waiting = 0 and wait = true, installs it
in the tagged reference, and then calls go_through on that new turnstile
(whose prelude increments cnt_waiting to incr64 0 = 1 and releases the
stripe before blocking), as the trace shows in order. -/
theorem c5_lock_on_heldsolo_allocates (mid : Nat) (s : MState)
    (hp : s.p_turnstile = TRef.gate) (hs : s.stripeLocked = false) :
    (lock mid s).map
        (fun p => (p.2, p.1.p_turnstile, heapGet p.1.heapT (s.nextId + 2),
                   p.1.stripeLocked, p.1.gateT, p.1.nextId, p.1.trace)) =
      some (LockOutcome.blocked (TRef.heap (s.nextId + 2)),
            TRef.heap (s.nextId + 2),
            some { cnt_waiting := incr64 0, cv_m := some s.nextId,
                   cv := some (s.nextId + 1), wait := true },
            false, s.gateT, s.nextId + 3,
            s.trace ++ [Ev.lockStripe mid, Ev.allocNativeMutex s.nextId,
                        Ev.allocCondVar (s.nextId + 1),
                        Ev.allocTurnstile (s.nextId + 2),
                        Ev.lockInternal s.nextId,
                        Ev.incrWaiting (TRef.heap (s.nextId + 2)),
                        Ev.unlockStripe mid, Ev.cvBlock (s.nextId + 1)])
      ∧ turnstileMk s.nextId (s.nextId + 1) =
          { cnt_waiting := 0, cv_m := some s.nextId,
            cv := some (s.nextId + 1), wait := true } := by
  constructor
  · simp [lock, hs, hp, goThroughPrelude, getT, setT, heapGet, heapSet,
          emit, turnstileMk]
  · rfl

/-- Witness for C5 at the concrete state of a Mutex locked once, where the
tagged reference is the gate. -/
theorem c5_lock_on_heldsolo_allocates_witness :
    (lock 0 sSolo).map
        (fun p => (p.2, p.1.p_turnstile, heapGet p.1.heapT (sSolo.nextId + 2),
                   p.1.stripeLocked, p.1.gateT, p.1.nextId, p.1.trace)) =
      some (LockOutcome.blocked (TRef.heap (sSolo.nextId + 2)),
            TRef.heap (sSolo.nextId + 2),
            some { cnt_waiting := incr64 0, cv_m := some sSolo.nextId,
                   cv := some (sSolo.nextId + 1), wait := true },
            false, sSolo.gateT, sSolo.nextId + 3,
            sSolo.trace ++ [Ev.lockStripe 0, Ev.allocNativeMutex sSolo.nextId,
                        Ev.allocCondVar (sSolo.nextId + 1),
                        Ev.allocTurnstile (sSolo.nextId + 2),
                        Ev.lockInternal sSolo.nextId,
                        Ev.incrWaiting (TRef.heap (sSolo.nextId + 2)),
                        Ev.unlockStripe 0, Ev.cvBlock (sSolo.nextId + 1)])
      ∧ turnstileMk sSolo.nextId (sSolo.nextId + 1) =
          { cnt_waiting := 0, cv_m := some sSolo.nextId,
            cv := some (sSolo.nextId + 1), wait := true } :=
  c5_lock_on_heldsolo_allocates 0 sSolo rfl rfl

/-- Claim C6: on a Lock whose tagged reference is a dynamic turnstile t,
unlock() reads canDropAfterSpin() (true iff cnt_waiting = 1) before
spinning, spins the turnstile (setting its wait flag to false and notifying
one waiter), resets the tagged reference to the gate exactly when
canDropAfterSpin held (otherwise it still points at the same turnstile),
and finally releases the stripe, as the trace shows in order. -/
theorem c6_unlock_on_heldqueued (mid a m c : Nat) (s : MState) (t : TState)
    (hp : s.p_turnstile = TRef.heap a) (hs : s.stripeLocked = false)
    (ht : heapGet s.heapT a = some t)
    (hm : t.cv_m = some m) (hc : t.cv = some c) :
    (unlock mid s).map
        (fun p => (p.2, p.1.p_turnstile, heapGet p.1.heapT a,
                   p.1.stripeLocked, p.1.gateT, p.1.trace)) =
      some (UnlockResult.ok,
            if t.cnt_waiting = 1 then TRef.gate else TRef.heap a,
            some { t with wait := false }, false, s.gateT,
            s.trace ++ [Ev.lockStripe mid, Ev.lockInternal m,
                        Ev.setWaitFalse (TRef.heap a), Ev.notifyOne c,
                        Ev.unlockInternal m, Ev.unlockStripe mid])
      ∧ (canDropAfterSpin t = true ↔ t.cnt_waiting = 1) := by
  refine ⟨?_, by simp [canDropAfterSpin]⟩
  have hset := heapGet_heapSet_self s.heapT a t { t with wait := false } ht
  by_cases h1 : t.cnt_waiting = 1
  · simp only [hm, hc, h1] at hset
    simp [unlock, hs, hp, ht, spin, getT, setT, emit, hm, hc,
          canDropAfterSpin, h1, hset]
  · simp only [hm, hc] at hset
    simp [unlock, hs, hp, ht, spin, getT, setT, emit, hm, hc,
          canDropAfterSpin, h1, hset]

/-- Witness for C6 at a concrete state with one waiter queued on a dynamic
turnstile. -/
theorem c6_unlock_on_heldqueued_witness :
    (unlock 0 sQueued).map
        (fun p => (p.2, p.1.p_turnstile, heapGet p.1.heapT 2,
                   p.1.stripeLocked, p.1.gateT, p.1.trace)) =
      some (UnlockResult.ok,
            if tEx.cnt_waiting = 1 then TRef.gate else TRef.heap 2,
            some { tEx with wait := false }, false, sQueued.gateT,
            sQueued.trace ++ [Ev.lockStripe 0, Ev.lockInternal 0,
                        Ev.setWaitFalse (TRef.heap 2), Ev.notifyOne 1,
                        Ev.unlockInternal 0, Ev.unlockStripe 0])
      ∧ (canDropAfterSpin tEx = true ↔ tEx.cnt_waiting = 1) :=
  c6_unlock_on_heldqueued 0 2 0 1 sQueued tEx rfl rfl rfl rfl rfl

/-- Claim C7: go_through, entered with the stripe held, acquires the
internal mutex, increments cnt_waiting, and only then releases the stripe,
before blocking (the trace shows the order); the wait predicate, evaluated
under the internal mutex on every (possibly spurious) wakeup, keeps
sleeping and changes nothing while wait is true, and on wait = false
decrements cnt_waiting and resets wait to true; spin() sets wait to false
and notifies exactly one waiter between acquiring and releasing the
internal mutex. -/
theorem c7_go_through_and_spin (mid m c : Nat) (r : TRef) (s : MState)
    (t : TState) (hr : getT s r = some t)
    (hm : t.cv_m = some m) (hc : t.cv = some c) :
    (goThroughPrelude mid r s).map
        (fun s' => (getT s' r, s'.stripeLocked, s'.trace)) =
      some (some { t with cnt_waiting := incr64 t.cnt_waiting }, false,
            s.trace ++ [Ev.lockInternal m, Ev.incrWaiting r,
                        Ev.unlockStripe mid, Ev.cvBlock c])
      ∧ waitPred { t with wait := true } = (false, { t with wait := true })
      ∧ waitPred { t with wait := false } =
          (true, { t with cnt_waiting := decr64 t.cnt_waiting, wait := true })
      ∧ (spin r s).map (fun s' => (getT s' r, s'.trace)) =
          some (some { t with wait := false },
                s.trace ++ [Ev.lockInternal m, Ev.setWaitFalse r,
                            Ev.notifyOne c, Ev.unlockInternal m]) := by
  have hw1 : waitPred { t with wait := true } =
      (false, { t with wait := true }) := by
    simp [waitPred]
  have hw2 : waitPred { t with wait := false } =
      (true, { t with cnt_waiting := decr64 t.cnt_waiting, wait := true }) := by
    simp [waitPred]
  cases r with
  | null => simp [getT] at hr
  | gate =>
    simp only [getT, Option.some.injEq] at hr
    refine ⟨?_, hw1, hw2, ?_⟩
    · simp [goThroughPrelude, getT, setT, emit, hm, hc, hr]
    · simp [spin, getT, setT, emit, hm, hc, hr]
  | heap a =>
    simp only [getT] at hr
    have h1 := heapGet_heapSet_self s.heapT a t
      { t with cnt_waiting := incr64 t.cnt_waiting } hr
    have h2 := heapGet_heapSet_self s.heapT a t { t with wait := false } hr
    refine ⟨?_, hw1, hw2, ?_⟩
    · simp only [hm, hc] at h1
      simp [goThroughPrelude, getT, setT, emit, hm, hc, hr, h1]
    · simp only [hm, hc] at h2
      simp [spin, getT, setT, emit, hm, hc, hr, h2]

/-- Witness for C7 at a concrete contended state. -/
theorem c7_go_through_and_spin_witness :
    (goThroughPrelude 0 (TRef.heap 2) sQueued).map
        (fun s' => (getT s' (TRef.heap 2), s'.stripeLocked, s'.trace)) =
      some (some { tEx with cnt_waiting := incr64 tEx.cnt_waiting }, false,
            sQueued.trace ++ [Ev.lockInternal 0,
                        Ev.incrWaiting (TRef.heap 2),
                        Ev.unlockStripe 0, Ev.cvBlock 1])
      ∧ waitPred { tEx with wait := true } =
          (false, { tEx with wait := true })
      ∧ waitPred { tEx with wait := false } =
          (true, { tEx with cnt_waiting := decr64 tEx.cnt_waiting, wait := true })
      ∧ (spin (TRef.heap 2) sQueued).map
            (fun s' => (getT s' (TRef.heap 2), s'.trace)) =
          some (some { tEx with wait := false },
                sQueued.trace ++ [Ev.lockInternal 0,
                            Ev.setWaitFalse (TRef.heap 2),
                            Ev.notifyOne 1, Ev.unlockInternal 0]) :=
  c7_go_through_and_spin 0 0 1 (TRef.heap 2) sQueued tEx rfl rfl rfl

/-- Example turnstile whose last waiter has just decremented cnt_waiting to
zero inside the wait predicate. -/
def tEx0 : TState :=
  { cnt_waiting := 0, cv_m := some 0, cv := some 1, wait := true }

/-- Example state holding the drained turnstile tEx0 at heap id 2. -/
def sDrain : MState :=
  { mutexInit with heapT := [(2, tEx0)], nextId := 3 }

/-- Claim C8: the tail of go_through destroys the turnstile exactly when
the waking thread observes cnt_waiting = 0 after its decrement, and the
destructor then frees the internal native mutex and the condition variable
the turnstile owns (first state, one deleteTurnstile event, entry gone from
the heap); a thread whose post-decrement observation is nonzero only
releases the internal mutex and never destroys anything (second state,
heap and entry untouched, no delete or free event). -/
theorem c8_last_waiter_destroys (aA mA cA aB mB : Nat) (t u : TState)
    (s1 s2 : MState)
    (h1 : heapGet s1.heapT aA = some t) (hm1 : t.cv_m = some mA)
    (hc1 : t.cv = some cA) (hz : t.cnt_waiting = 0)
    (hnd : (s1.heapT.map Prod.fst).Nodup)
    (h2 : heapGet s2.heapT aB = some u) (hm2 : u.cv_m = some mB)
    (hnz : u.cnt_waiting ≠ 0) :
    (goThroughExit (TRef.heap aA) s1).map
        (fun s' => (heapGet s'.heapT aA, s'.trace)) =
      some (none, s1.trace ++ [Ev.unlockInternal mA,
                               Ev.deleteTurnstile (TRef.heap aA),
                               Ev.freeNativeMutex mA, Ev.freeCondVar cA])
    ∧ (goThroughExit (TRef.heap aB) s2).map
        (fun s' => (s'.heapT, s'.trace)) =
      some (s2.heapT, s2.trace ++ [Ev.unlockInternal mB]) := by
  constructor
  · have hdel := heapGet_heapDel_self s1.heapT aA hnd
    simp [goThroughExit, getT, h1, hm1, hc1, turnstileEmpty, hz,
          destroyTurnstile, emit, hdel]
  · simp [goThroughExit, getT, h2, hm2, turnstileEmpty, hnz, emit]

/-- Witness for C8 at concrete drained and non-drained states. -/
theorem c8_last_waiter_destroys_witness :
    (goThroughExit (TRef.heap 2) sDrain).map
        (fun s' => (heapGet s'.heapT 2, s'.trace)) =
      some (none, sDrain.trace ++ [Ev.unlockInternal 0,
                               Ev.deleteTurnstile (TRef.heap 2),
                               Ev.freeNativeMutex 0, Ev.freeCondVar 1])
    ∧ (goThroughExit (TRef.heap 2) sQueued).map
        (fun s' => (s'.heapT, s'.trace)) =
      some (sQueued.heapT, sQueued.trace ++ [Ev.unlockInternal 0]) :=
  c8_last_waiter_destroys 2 0 1 2 0 tEx0 tEx sDrain sQueued rfl rfl rfl rfl
    (by decide) rfl rfl (by decide)

/-! Inversion lemmas, characterizing the successful runs of the internal
operations.  They drive the invariant claims C9 and C10. -/

theorem goThroughPrelude_heap_run (mid a : Nat) (s : MState) (t : TState)
    (m c : Nat) (hg : heapGet s.heapT a = some t) (hcm : t.cv_m = some m)
    (hcv : t.cv = some c) :
    (goThroughPrelude mid (TRef.heap a) s).map
        (fun x => (x.p_turnstile, x.gateT, x.heapT, x.nextId,
                   x.stripeLocked, x.trace)) =
      some (s.p_turnstile, s.gateT,
            heapSet s.heapT a { t with cnt_waiting := incr64 t.cnt_waiting },
            s.nextId, false,
            s.trace ++ [Ev.lockInternal m, Ev.incrWaiting (TRef.heap a),
                        Ev.unlockStripe mid, Ev.cvBlock c]) := by
  simp [goThroughPrelude, getT, setT, emit, hg, hcm, hcv]

theorem goThroughPrelude_heap_none (mid a : Nat) (s : MState)
    (hbad : ∀ t, heapGet s.heapT a = some t →
      t.cv_m = none ∨ t.cv = none) :
    goThroughPrelude mid (TRef.heap a) s = none := by
  cases hg : heapGet s.heapT a with
  | none => simp [goThroughPrelude, getT, hg]
  | some t =>
    rcases hbad t hg with hb | hb <;>
      simp [goThroughPrelude, getT, hg, hb]

theorem goThroughPrelude_heap_inv (mid a : Nat) (s s' : MState)
    (h : goThroughPrelude mid (TRef.heap a) s = some s') :
    ∃ t m c, heapGet s.heapT a = some t ∧ t.cv_m = some m ∧ t.cv = some c ∧
      s'.p_turnstile = s.p_turnstile ∧ s'.gateT = s.gateT ∧
      s'.heapT = heapSet s.heapT a
        { t with cnt_waiting := incr64 t.cnt_waiting } ∧
      s'.nextId = s.nextId ∧ s'.stripeLocked = false ∧
      s'.trace = s.trace ++ [Ev.lockInternal m,
                             Ev.incrWaiting (TRef.heap a),
                             Ev.unlockStripe mid, Ev.cvBlock c] := by
  cases hg : heapGet s.heapT a with
  | none =>
    rw [goThroughPrelude_heap_none mid a s (fun t ht => by
      rw [hg] at ht; exact absurd ht (by simp))] at h
    simp at h
  | some t =>
    cases hcm : t.cv_m with
    | none =>
      rw [goThroughPrelude_heap_none mid a s (fun u hu => by
        rw [hg] at hu
        cases hu
        exact Or.inl hcm)] at h
      simp at h
    | some m =>
      cases hcv : t.cv with
      | none =>
        rw [goThroughPrelude_heap_none mid a s (fun u hu => by
          rw [hg] at hu
          cases hu
          exact Or.inr hcv)] at h
        simp at h
      | some c =>
        have hrun := goThroughPrelude_heap_run mid a s t m c hg hcm hcv
        rw [h] at hrun
        simp only [Option.map_some', Option.some.injEq,
                   Prod.mk.injEq] at hrun
        exact ⟨t, m, c, rfl, hcm, hcv, hrun.1, hrun.2.1, hrun.2.2.1,
               hrun.2.2.2.1, hrun.2.2.2.2.1, hrun.2.2.2.2.2⟩

theorem spin_heap_run (a : Nat) (s : MState) (t : TState) (m c : Nat)
    (hg : heapGet s.heapT a = some t) (hcm : t.cv_m = some m)
    (hcv : t.cv = some c) :
    (spin (TRef.heap a) s).map
        (fun x => (x.p_turnstile, x.gateT, x.heapT, x.nextId,
                   x.stripeLocked, x.trace)) =
      some (s.p_turnstile, s.gateT,
            heapSet s.heapT a { t with wait := false },
            s.nextId, s.stripeLocked,
            s.trace ++ [Ev.lockInternal m, Ev.setWaitFalse (TRef.heap a),
                        Ev.notifyOne c, Ev.unlockInternal m]) := by
  simp [spin, getT, setT, emit, hg, hcm, hcv]

theorem spin_heap_none (a : Nat) (s : MState)
    (hbad : ∀ t, heapGet s.heapT a = some t →
      t.cv_m = none ∨ t.cv = none) :
    spin (TRef.heap a) s = none := by
  cases hg : heapGet s.heapT a with
  | none => simp [spin, getT, hg]
  | some t =>
    rcases hbad t hg with hb | hb <;> simp [spin, getT, hg, hb]

theorem spin_heap_inv (a : Nat) (s s' : MState)
    (h : spin (TRef.heap a) s = some s') :
    ∃ t m c, heapGet s.heapT a = some t ∧ t.cv_m = some m ∧ t.cv = some c ∧
      s'.p_turnstile = s.p_turnstile ∧ s'.gateT = s.gateT ∧
      s'.heapT = heapSet s.heapT a { t with wait := false } ∧
      s'.nextId = s.nextId ∧ s'.stripeLocked = s.stripeLocked ∧
      s'.trace = s.trace ++ [Ev.lockInternal m,
                             Ev.setWaitFalse (TRef.heap a),
                             Ev.notifyOne c, Ev.unlockInternal m] := by
  cases hg : heapGet s.heapT a with
  | none =>
    rw [spin_heap_none a s (fun t ht => by
      rw [hg] at ht; exact absurd ht (by simp))] at h
    simp at h
  | some t =>
    cases hcm : t.cv_m with
    | none =>
      rw [spin_heap_none a s (fun u hu => by
        rw [hg] at hu
        cases hu
        exact Or.inl hcm)] at h
      simp at h
    | some m =>
      cases hcv : t.cv with
      | none =>
        rw [spin_heap_none a s (fun u hu => by
          rw [hg] at hu
          cases hu
          exact Or.inr hcv)] at h
        simp at h
      | some c =>
        have hrun := spin_heap_run a s t m c hg hcm hcv
        rw [h] at hrun
        simp only [Option.map_some', Option.some.injEq,
                   Prod.mk.injEq] at hrun
        exact ⟨t, m, c, rfl, hcm, hcv, hrun.1, hrun.2.1, hrun.2.2.1,
               hrun.2.2.2.1, hrun.2.2.2.2.1, hrun.2.2.2.2.2⟩

/-- The events the destructor appends. -/
def destroyEvs (t : TState) : List Ev :=
  (match t.cv_m with
   | some m => [Ev.freeNativeMutex m]
   | none => []) ++
  (match t.cv with
   | some c => [Ev.freeCondVar c]
   | none => [])

theorem destroyTurnstile_inv (t : TState) (s : MState) :
    (destroyTurnstile t s).p_turnstile = s.p_turnstile ∧
    (destroyTurnstile t s).gateT = s.gateT ∧
    (destroyTurnstile t s).heapT = s.heapT ∧
    (destroyTurnstile t s).nextId = s.nextId ∧
    (destroyTurnstile t s).stripeLocked = s.stripeLocked ∧
    (destroyTurnstile t s).trace = s.trace ++ destroyEvs t := by
  cases hcm : t.cv_m <;> cases hcv : t.cv <;>
    simp [destroyTurnstile, destroyEvs, emit, hcm, hcv]

theorem goThroughExit_empty_run (a : Nat) (s : MState) (t : TState)
    (m : Nat) (hg : heapGet s.heapT a = some t) (hcm : t.cv_m = some m)
    (hz : t.cnt_waiting = 0) :
    (goThroughExit (TRef.heap a) s).map
        (fun x => (x.p_turnstile, x.gateT, x.heapT, x.nextId,
                   x.stripeLocked, x.trace)) =
      some (s.p_turnstile, s.gateT, heapDel s.heapT a, s.nextId,
            s.stripeLocked,
            s.trace ++ [Ev.unlockInternal m,
                        Ev.deleteTurnstile (TRef.heap a)] ++
              destroyEvs t) := by
  cases hcv : t.cv <;>
    simp [goThroughExit, getT, destroyTurnstile, destroyEvs, emit,
          hg, hcm, hcv, turnstileEmpty, hz]

theorem goThroughExit_nonempty_run (r : TRef) (s : MState) (t : TState)
    (m : Nat) (hg : getT s r = some t) (hcm : t.cv_m = some m)
    (hnz : t.cnt_waiting ≠ 0) :
    (goThroughExit r s).map
        (fun x => (x.p_turnstile, x.gateT, x.heapT, x.nextId,
                   x.stripeLocked, x.trace)) =
      some (s.p_turnstile, s.gateT, s.heapT, s.nextId, s.stripeLocked,
            s.trace ++ [Ev.unlockInternal m]) := by
  simp [goThroughExit, hg, hcm, turnstileEmpty, hnz, emit]

theorem goThroughExit_none (r : TRef) (s : MState)
    (hbad : ∀ t, getT s r = some t →
      t.cv_m = none ∨
      (t.cnt_waiting = 0 ∧ ∀ a : Nat, r ≠ TRef.heap a)) :
    goThroughExit r s = none := by
  cases hg : getT s r with
  | none => simp [goThroughExit, hg]
  | some t =>
    rcases hbad t hg with hb | ⟨hz, hr⟩
    · simp [goThroughExit, hg, hb]
    · cases hcv : t.cv_m with
      | none => simp [goThroughExit, hg, hcv]
      | some m =>
        cases r with
        | null => simp [goThroughExit, hg, hcv, turnstileEmpty, hz]
        | gate => simp [goThroughExit, hg, hcv, turnstileEmpty, hz]
        | heap a => exact absurd rfl (hr a)

theorem goThroughExit_inv (r : TRef) (s s' : MState)
    (h : goThroughExit r s = some s') :
    s'.p_turnstile = s.p_turnstile ∧ s'.gateT = s.gateT ∧
    s'.nextId = s.nextId ∧ s'.stripeLocked = s.stripeLocked ∧
    ((∃ a t m, r = TRef.heap a ∧ heapGet s.heapT a = some t ∧
        t.cv_m = some m ∧ t.cnt_waiting = 0 ∧
        s'.heapT = heapDel s.heapT a ∧
        s'.trace = s.trace ++ [Ev.unlockInternal m,
                               Ev.deleteTurnstile (TRef.heap a)] ++
                   destroyEvs t) ∨
     (∃ t m, getT s r = some t ∧ t.cv_m = some m ∧ t.cnt_waiting ≠ 0 ∧
        s'.heapT = s.heapT ∧
        s'.trace = s.trace ++ [Ev.unlockInternal m])) := by
  cases hg : getT s r with
  | none =>
    rw [goThroughExit_none r s (fun t ht => by
      rw [hg] at ht; exact absurd ht (by simp))] at h
    simp at h
  | some t =>
    cases hcm : t.cv_m with
    | none =>
      rw [goThroughExit_none r s (fun u hu => by
        rw [hg] at hu
        cases hu
        exact Or.inl hcm)] at h
      simp at h
    | some m =>
      by_cases hz : t.cnt_waiting = 0
      · cases r with
        | null =>
          rw [goThroughExit_none TRef.null s (fun u hu => by
            rw [hg] at hu
            cases hu
            exact Or.inr ⟨hz, fun a => by simp⟩)] at h
          simp at h
        | gate =>
          rw [goThroughExit_none TRef.gate s (fun u hu => by
            rw [hg] at hu
            cases hu
            exact Or.inr ⟨hz, fun a => by simp⟩)] at h
          simp at h
        | heap a =>
          simp only [getT] at hg
          have hrun := goThroughExit_empty_run a s t m hg hcm hz
          rw [h] at hrun
          simp only [Option.map_some', Option.some.injEq,
                     Prod.mk.injEq] at hrun
          exact ⟨hrun.1, hrun.2.1, hrun.2.2.2.1, hrun.2.2.2.2.1,
                 Or.inl ⟨a, t, m, rfl, hg, hcm, hz, hrun.2.2.1,
                         hrun.2.2.2.2.2⟩⟩
      · have hrun := goThroughExit_nonempty_run r s t m hg hcm hz
        rw [h] at hrun
        simp only [Option.map_some', Option.some.injEq,
                   Prod.mk.injEq] at hrun
        exact ⟨hrun.1, hrun.2.1, hrun.2.2.2.1, hrun.2.2.2.2.1,
               Or.inr ⟨t, m, rfl, hcm, hz, hrun.2.2.1,
                       hrun.2.2.2.2.2⟩⟩

theorem lock_inv (mid : Nat) (s s' : MState) (o : LockOutcome)
    (h : lock mid s = some (s', o)) :
    s.stripeLocked = false ∧ s'.gateT = s.gateT ∧
    ((s.p_turnstile = TRef.null ∧ o = LockOutcome.acquiredFast ∧
      s'.p_turnstile = TRef.gate ∧ s'.heapT = s.heapT ∧
      s'.nextId = s.nextId ∧ s'.stripeLocked = false ∧
      s'.trace = s.trace ++ [Ev.lockStripe mid, Ev.unlockStripe mid]) ∨
     (s.p_turnstile = TRef.gate ∧
      o = LockOutcome.blocked (TRef.heap (s.nextId + 2)) ∧
      s'.p_turnstile = TRef.heap (s.nextId + 2) ∧
      s'.heapT = (s.nextId + 2,
        { cnt_waiting := incr64 0, cv_m := some s.nextId,
          cv := some (s.nextId + 1), wait := true }) :: s.heapT ∧
      s'.nextId = s.nextId + 3 ∧ s'.stripeLocked = false ∧
      s'.trace = s.trace ++ [Ev.lockStripe mid,
        Ev.allocNativeMutex s.nextId, Ev.allocCondVar (s.nextId + 1),
        Ev.allocTurnstile (s.nextId + 2), Ev.lockInternal s.nextId,
        Ev.incrWaiting (TRef.heap (s.nextId + 2)), Ev.unlockStripe mid,
        Ev.cvBlock (s.nextId + 1)]) ∨
     (∃ a t m c, s.p_turnstile = TRef.heap a ∧
      o = LockOutcome.blocked (TRef.heap a) ∧
      heapGet s.heapT a = some t ∧ t.cv_m = some m ∧ t.cv = some c ∧
      s'.p_turnstile = TRef.heap a ∧
      s'.heapT = heapSet s.heapT a
        { t with cnt_waiting := incr64 t.cnt_waiting } ∧
      s'.nextId = s.nextId ∧ s'.stripeLocked = false ∧
      s'.trace = s.trace ++ [Ev.lockStripe mid, Ev.lockInternal m,
        Ev.incrWaiting (TRef.heap a), Ev.unlockStripe mid,
        Ev.cvBlock c])) := by
  by_cases hsl : s.stripeLocked = true
  · rw [show lock mid s = none from by simp [lock, hsl]] at h
    simp at h
  · have hsl' : s.stripeLocked = false := by simpa using hsl
    refine ⟨hsl', ?_⟩
    cases hp : s.p_turnstile with
    | null =>
      rw [show lock mid s =
          some ({ s with
                  p_turnstile := TRef.gate
                  stripeLocked := false
                  trace := s.trace ++ [Ev.lockStripe mid,
                                       Ev.unlockStripe mid] },
                LockOutcome.acquiredFast) from by
        simp [lock, hsl', hp, emit]] at h
      simp only [Option.some.injEq, Prod.mk.injEq] at h
      obtain ⟨hs', ho⟩ := h
      subst hs'
      subst ho
      exact ⟨rfl, Or.inl ⟨rfl, rfl, rfl, rfl, rfl, rfl, rfl⟩⟩
    | gate =>
      rw [show lock mid s =
          (goThroughPrelude mid (TRef.heap (s.nextId + 2))
            { p_turnstile := TRef.heap (s.nextId + 2), gateT := s.gateT,
              heapT := (s.nextId + 2,
                turnstileMk s.nextId (s.nextId + 1)) :: s.heapT,
              stripeLocked := true, nextId := s.nextId + 3,
              trace := s.trace ++ [Ev.lockStripe mid,
                Ev.allocNativeMutex s.nextId,
                Ev.allocCondVar (s.nextId + 1),
                Ev.allocTurnstile (s.nextId + 2)] }).map
            (fun s3 => (s3, LockOutcome.blocked
              (TRef.heap (s.nextId + 2)))) from by
        simp [lock, hsl', hp, emit]] at h
      obtain ⟨s3, hpre, heq⟩ := Option.map_eq_some'.mp h
      have hgB : heapGet ((s.nextId + 2,
          turnstileMk s.nextId (s.nextId + 1)) :: s.heapT)
          (s.nextId + 2) = some (turnstileMk s.nextId (s.nextId + 1)) := by
        simp [heapGet]
      have hrun := goThroughPrelude_heap_run mid (s.nextId + 2)
        { p_turnstile := TRef.heap (s.nextId + 2), gateT := s.gateT,
          heapT := (s.nextId + 2,
            turnstileMk s.nextId (s.nextId + 1)) :: s.heapT,
          stripeLocked := true, nextId := s.nextId + 3,
          trace := s.trace ++ [Ev.lockStripe mid,
            Ev.allocNativeMutex s.nextId, Ev.allocCondVar (s.nextId + 1),
            Ev.allocTurnstile (s.nextId + 2)] }
        (turnstileMk s.nextId (s.nextId + 1)) s.nextId (s.nextId + 1)
        hgB rfl rfl
      rw [hpre] at hrun
      simp only [Option.map_some', Option.some.injEq,
                 Prod.mk.injEq] at hrun
      simp only [Prod.mk.injEq] at heq
      obtain ⟨hs3, ho⟩ := heq
      subst hs3
      subst ho
      obtain ⟨r1, r2, r3, r4, r5, r6⟩ := hrun
      simp only [turnstileMk] at r3
      rw [show heapSet ((s.nextId + 2,
            ({ cnt_waiting := 0, cv_m := some s.nextId,
               cv := some (s.nextId + 1), wait := true } : TState))
              :: s.heapT) (s.nextId + 2)
            { cnt_waiting := incr64 0, cv_m := some s.nextId,
              cv := some (s.nextId + 1), wait := true } =
          (s.nextId + 2,
            ({ cnt_waiting := incr64 0, cv_m := some s.nextId,
               cv := some (s.nextId + 1), wait := true } : TState))
              :: s.heapT from by simp [heapSet]] at r3
      refine ⟨r2, Or.inr (Or.inl ⟨rfl, rfl, r1, r3, r4, r5, ?_⟩)⟩
      rw [r6]
      simp
    | heap a =>
      rw [show lock mid s =
          (goThroughPrelude mid (TRef.heap a)
            { p_turnstile := TRef.heap a, gateT := s.gateT,
              heapT := s.heapT, stripeLocked := true, nextId := s.nextId,
              trace := s.trace ++ [Ev.lockStripe mid] }).map
            (fun s3 => (s3, LockOutcome.blocked (TRef.heap a))) from by
        simp [lock, hsl', hp, emit]] at h
      obtain ⟨s3, hpre, heq⟩ := Option.map_eq_some'.mp h
      obtain ⟨t, m, c, hg, hcm, hcv, e1, e2, e3, e4, e5, e6⟩ :=
        goThroughPrelude_heap_inv mid a _ s3 hpre
      simp only [Prod.mk.injEq] at heq
      obtain ⟨hs3, ho⟩ := heq
      subst hs3
      subst ho
      refine ⟨e2, Or.inr (Or.inr ⟨a, t, m, c, rfl, rfl, hg, hcm, hcv,
        e1, e3, e4, e5, ?_⟩)⟩
      rw [e6]
      simp

theorem unlock_inv (mid : Nat) (s s' : MState) (u : UnlockResult)
    (h : unlock mid s = some (s', u)) :
    s.stripeLocked = false ∧ s'.gateT = s.gateT ∧ s'.nextId = s.nextId ∧
    ((s.p_turnstile = TRef.null ∧ u = UnlockResult.protocolError ∧
      s'.p_turnstile = TRef.null ∧ s'.heapT = s.heapT ∧
      s'.stripeLocked = true ∧
      s'.trace = s.trace ++ [Ev.lockStripe mid, Ev.throwErr]) ∨
     (s.p_turnstile = TRef.gate ∧ u = UnlockResult.ok ∧
      s'.p_turnstile = TRef.null ∧ s'.heapT = s.heapT ∧
      s'.stripeLocked = false ∧
      s'.trace = s.trace ++ [Ev.lockStripe mid, Ev.unlockStripe mid]) ∨
     (∃ a t m c, s.p_turnstile = TRef.heap a ∧ u = UnlockResult.ok ∧
      heapGet s.heapT a = some t ∧ t.cv_m = some m ∧ t.cv = some c ∧
      s'.p_turnstile = (if canDropAfterSpin t then TRef.gate
                        else TRef.heap a) ∧
      s'.heapT = heapSet s.heapT a { t with wait := false } ∧
      s'.stripeLocked = false ∧
      s'.trace = s.trace ++ [Ev.lockStripe mid, Ev.lockInternal m,
        Ev.setWaitFalse (TRef.heap a), Ev.notifyOne c,
        Ev.unlockInternal m, Ev.unlockStripe mid])) := by
  by_cases hsl : s.stripeLocked = true
  · rw [show unlock mid s = none from by simp [unlock, hsl]] at h
    simp at h
  · have hsl' : s.stripeLocked = false := by simpa using hsl
    refine ⟨hsl', ?_⟩
    cases hp : s.p_turnstile with
    | null =>
      rw [show unlock mid s =
          some ({ s with
                  stripeLocked := true
                  trace := s.trace ++ [Ev.lockStripe mid, Ev.throwErr] },
                UnlockResult.protocolError) from by
        simp [unlock, hsl', hp, emit]] at h
      simp only [Option.some.injEq, Prod.mk.injEq] at h
      obtain ⟨hs', hu⟩ := h
      subst hs'
      subst hu
      exact ⟨rfl, rfl, Or.inl ⟨rfl, rfl, hp, rfl, rfl, rfl⟩⟩
    | gate =>
      rw [show unlock mid s =
          some ({ s with
                  p_turnstile := TRef.null
                  stripeLocked := false
                  trace := s.trace ++ [Ev.lockStripe mid,
                                       Ev.unlockStripe mid] },
                UnlockResult.ok) from by
        simp [unlock, hsl', hp, emit]] at h
      simp only [Option.some.injEq, Prod.mk.injEq] at h
      obtain ⟨hs', hu⟩ := h
      subst hs'
      subst hu
      exact ⟨rfl, rfl, Or.inr (Or.inl ⟨rfl, rfl, rfl, rfl, rfl, rfl⟩)⟩
    | heap a =>
      cases hg : heapGet s.heapT a with
      | none =>
        rw [show unlock mid s = none from by
          simp [unlock, hsl', hp, emit, hg]] at h
        simp at h
      | some t =>
        cases hspin : spin (TRef.heap a)
            { p_turnstile := TRef.heap a, gateT := s.gateT,
              heapT := s.heapT, stripeLocked := true, nextId := s.nextId,
              trace := s.trace ++ [Ev.lockStripe mid] } with
        | none =>
          rw [show unlock mid s = none from by
            simp [unlock, hsl', hp, emit, hg, hspin]] at h
          simp at h
        | some s2 =>
          obtain ⟨t', m, c, hg', hcm, hcv, f1, f2, f3, f4, f5, f6⟩ :=
            spin_heap_inv a _ s2 hspin
          simp only at hg'
          rw [hg] at hg'
          cases hg'
          rw [show unlock mid s =
              some (emit { (if canDropAfterSpin t then
                              { s2 with p_turnstile := TRef.gate }
                            else s2) with stripeLocked := false }
                      (Ev.unlockStripe mid), UnlockResult.ok) from by
            simp [unlock, hsl', hp, emit, hg, hspin]] at h
          simp only [Option.some.injEq, Prod.mk.injEq] at h
          obtain ⟨hs', hu⟩ := h
          subst hs'
          subst hu
          by_cases hcd : canDropAfterSpin t = true
          · refine ⟨?_, ?_, Or.inr (Or.inr ⟨a, t, m, c, rfl, rfl, hg,
              hcm, hcv, ?_, ?_, ?_, ?_⟩)⟩ <;>
              simp [emit, hcd, f1, f2, f3, f4, f5, f6]
          · have hcd' : canDropAfterSpin t = false := by
              simpa using hcd
            refine ⟨?_, ?_, Or.inr (Or.inr ⟨a, t, m, c, rfl, rfl, hg,
              hcm, hcv, ?_, ?_, ?_, ?_⟩)⟩ <;>
              simp [emit, hcd', f1, f2, f3, f4, f5, f6]

/-- Boolean marker for the events that use the gate turnstile as a real
waiting queue: registering a waiter on it (go_through), spinning it, or
deleting it. -/
def touchesGate : Ev → Bool
  | Ev.incrWaiting r => r == TRef.gate
  | Ev.setWaitFalse r => r == TRef.gate
  | Ev.deleteTurnstile r => r == TRef.gate
  | _ => false

theorem destroyEvs_filter (t : TState) :
    (destroyEvs t).filter touchesGate = [] := by
  cases hm : t.cv_m <;> cases hc : t.cv <;>
    simp [destroyEvs, hm, hc, touchesGate]

/-- Example state: the result of the first lock() on a fresh Mutex. -/
def sAfterFirstLock : MState :=
  { p_turnstile := TRef.gate, gateT := turnstileDefault, heapT := [],
    stripeLocked := false, nextId := 0,
    trace := [Ev.lockStripe 0, Ev.unlockStripe 0] }

/-- Example state: the result of unlock() on sSolo. -/
def sAfterRelease : MState :=
  { p_turnstile := TRef.null, gateT := turnstileDefault, heapT := [],
    stripeLocked := false, nextId := 0,
    trace := [Ev.lockStripe 0, Ev.unlockStripe 0] }

/-- Example state: the result of the go_through tail on sQueued (one other
waiter remains, so nothing is destroyed). -/
def sAfterExit : MState :=
  { p_turnstile := TRef.heap 2, gateT := turnstileDefault,
    heapT := [(2, tEx)], stripeLocked := false, nextId := 3,
    trace := [Ev.unlockInternal 0] }

/-- Claim C9: the static gate turnstile is permanently empty and never
waited upon.  A blocking lock() never blocks on the gate (nor on nullptr);
lock(), unlock() and the go_through tail never change the gate turnstile
state and never append an event that registers a waiter on the gate, spins
the gate or deletes the gate; and the gate starts with cnt_waiting = 0, so
its waiter count stays 0 forever. -/
theorem c9_sentinel_never_waited (mid1 mid2 : Nat) (r3 : TRef)
    (s1 s2 s3 s1' s2' s3' : MState) (o : LockOutcome) (u : UnlockResult)
    (hl : lock mid1 s1 = some (s1', o))
    (hu : unlock mid2 s2 = some (s2', u))
    (he : goThroughExit r3 s3 = some s3') :
    mutexInit.gateT.cnt_waiting = 0
    ∧ s1'.gateT = s1.gateT ∧ s2'.gateT = s2.gateT ∧ s3'.gateT = s3.gateT
    ∧ s1'.trace.filter touchesGate = s1.trace.filter touchesGate
    ∧ s2'.trace.filter touchesGate = s2.trace.filter touchesGate
    ∧ s3'.trace.filter touchesGate = s3.trace.filter touchesGate
    ∧ o ≠ LockOutcome.blocked TRef.gate
    ∧ o ≠ LockOutcome.blocked TRef.null := by
  obtain ⟨-, hg1, hd1⟩ := lock_inv mid1 s1 s1' o hl
  obtain ⟨-, hg2, -, hd2⟩ := unlock_inv mid2 s2 s2' u hu
  obtain ⟨-, hg3, -, -, hd3⟩ := goThroughExit_inv r3 s3 s3' he
  refine ⟨rfl, hg1, hg2, hg3, ?_, ?_, ?_, ?_, ?_⟩
  · rcases hd1 with ⟨-, -, -, -, -, -, htr⟩ | ⟨-, -, -, -, -, -, htr⟩ |
      ⟨a, t, m, c, -, -, -, -, -, -, -, -, -, htr⟩ <;>
      rw [htr, List.filter_append] <;> simp [touchesGate]
  · rcases hd2 with ⟨-, -, -, -, -, htr⟩ | ⟨-, -, -, -, -, htr⟩ |
      ⟨a, t, m, c, -, -, -, -, -, -, -, -, htr⟩ <;>
      rw [htr, List.filter_append] <;> simp [touchesGate]
  · rcases hd3 with ⟨a, t, m, -, -, -, -, -, htr⟩ | ⟨t, m, -, -, -, -, htr⟩
    · rw [htr, List.filter_append, List.filter_append,
          destroyEvs_filter]
      simp [touchesGate]
    · rw [htr, List.filter_append]
      simp [touchesGate]
  · rcases hd1 with ⟨-, ho, -⟩ | ⟨-, ho, -⟩ |
      ⟨a, t, m, c, -, ho, -⟩ <;> rw [ho] <;> simp
  · rcases hd1 with ⟨-, ho, -⟩ | ⟨-, ho, -⟩ |
      ⟨a, t, m, c, -, ho, -⟩ <;> rw [ho] <;> simp

/-- Witness for C9 at concrete runs: the first lock() on a fresh Mutex, an
unlock() of an uncontended Mutex, and a go_through tail with a waiter
remaining. -/
theorem c9_sentinel_never_waited_witness :
    mutexInit.gateT.cnt_waiting = 0
    ∧ sAfterFirstLock.gateT = mutexInit.gateT
    ∧ sAfterRelease.gateT = sSolo.gateT
    ∧ sAfterExit.gateT = sQueued.gateT
    ∧ sAfterFirstLock.trace.filter touchesGate =
        mutexInit.trace.filter touchesGate
    ∧ sAfterRelease.trace.filter touchesGate =
        sSolo.trace.filter touchesGate
    ∧ sAfterExit.trace.filter touchesGate =
        sQueued.trace.filter touchesGate
    ∧ LockOutcome.acquiredFast ≠ LockOutcome.blocked TRef.gate
    ∧ LockOutcome.acquiredFast ≠ LockOutcome.blocked TRef.null :=
  c9_sentinel_never_waited 0 0 (TRef.heap 2) mutexInit sSolo sQueued
    sAfterFirstLock sAfterRelease sAfterExit LockOutcome.acquiredFast
    UnlockResult.ok rfl rfl rfl

/-- Keys of the dynamic-turnstile heap are distinct and below the
allocator counter. -/
def heapWF (s : MState) : Prop :=
  (s.heapT.map Prod.fst).Nodup ∧
  ∀ k ∈ s.heapT.map Prod.fst, k < s.nextId

/-- Whenever the tagged reference points at a dynamic turnstile, that
turnstile owns a non-null internal mutex and condition variable. -/
def pointedLive (s : MState) : Prop :=
  ∀ a t, s.p_turnstile = TRef.heap a → heapGet s.heapT a = some t →
    (∃ m, t.cv_m = some m) ∧ (∃ c, t.cv = some c)

/-- The invariant of claim C10: the heap is well formed, the pointed-to
dynamic turnstile has non-null internal pointers (it was built by the
two-argument constructor in lock()), and only the gate sentinel has null
internal pointers. -/
def Inv (s : MState) : Prop :=
  heapWF s ∧ pointedLive s ∧ s.gateT.cv_m = none ∧ s.gateT.cv = none

/-- Claim C10: the invariant holds initially and is kept by every
operation: lock(), unlock(), and the go_through tail. -/
theorem c10_pointed_turnstile_nonnull :
    Inv mutexInit
    ∧ (∀ mid s s' o, Inv s → lock mid s = some (s', o) → Inv s')
    ∧ (∀ mid s s' u, Inv s → unlock mid s = some (s', u) → Inv s')
    ∧ (∀ r s s', Inv s → goThroughExit r s = some s' → Inv s') := by
  refine ⟨⟨⟨by simp [mutexInit], by simp [mutexInit]⟩, ?_, rfl, rfl⟩,
    ?_, ?_, ?_⟩
  · intro a t h1 h2
    simp [mutexInit] at h1
  · intro mid s s' o hInv hl
    obtain ⟨⟨hnd, hbound⟩, hpl, hgm, hgc⟩ := hInv
    obtain ⟨-, hg, hd⟩ := lock_inv mid s s' o hl
    rcases hd with ⟨hp, -, hp', hh, hn, -, -⟩ |
      ⟨hp, -, hp', hh, hn, -, -⟩ |
      ⟨a, t, m, c, hp, -, hgt, hcm, hcv, hp', hh, hn, -, -⟩
    · refine ⟨⟨?_, ?_⟩, ?_, ?_, ?_⟩
      · rw [hh]; exact hnd
      · rw [hh, hn]; exact hbound
      · intro b u h1 h2
        rw [hp'] at h1
        simp at h1
      · rw [hg]; exact hgm
      · rw [hg]; exact hgc
    · refine ⟨⟨?_, ?_⟩, ?_, ?_, ?_⟩
      · rw [hh]
        simp only [List.map_cons, List.nodup_cons]
        exact ⟨fun hmem => absurd (hbound _ hmem) (by omega), hnd⟩
      · rw [hh, hn]
        simp only [List.map_cons, List.mem_cons]
        rintro k (rfl | hk)
        · omega
        · exact lt_trans (hbound k hk) (by omega)
      · intro b u h1 h2
        rw [hp'] at h1
        injection h1 with hba
        subst hba
        rw [hh] at h2
        have h2' : u = { cnt_waiting := incr64 0, cv_m := some s.nextId, cv := some (s.nextId + 1), wait := true } := by
          simpa [heapGet] using h2.symm
        subst h2'
        exact ⟨⟨s.nextId, rfl⟩, ⟨s.nextId + 1, rfl⟩⟩
      · rw [hg]; exact hgm
      · rw [hg]; exact hgc
    · refine ⟨⟨?_, ?_⟩, ?_, ?_, ?_⟩
      · rw [hh, heapSet_keys]; exact hnd
      · rw [hh, heapSet_keys, hn]; exact hbound
      · intro b u h1 h2
        rw [hp'] at h1
        injection h1 with hab
        subst hab
        rw [hh, heapGet_heapSet_self s.heapT a t _ hgt] at h2
        injection h2 with h2
        subst h2
        exact ⟨⟨m, hcm⟩, ⟨c, hcv⟩⟩
      · rw [hg]; exact hgm
      · rw [hg]; exact hgc
  · intro mid s s' u hInv hu
    obtain ⟨⟨hnd, hbound⟩, hpl, hgm, hgc⟩ := hInv
    obtain ⟨-, hg, hn, hd⟩ := unlock_inv mid s s' u hu
    rcases hd with ⟨hp, -, hp', hh, -, -⟩ | ⟨hp, -, hp', hh, -, -⟩ |
      ⟨a, t, m, c, hp, -, hgt, hcm, hcv, hp', hh, -, -⟩
    · refine ⟨⟨?_, ?_⟩, ?_, ?_, ?_⟩
      · rw [hh]; exact hnd
      · rw [hh, hn]; exact hbound
      · intro b u h1 h2
        rw [hp'] at h1
        simp at h1
      · rw [hg]; exact hgm
      · rw [hg]; exact hgc
    · refine ⟨⟨?_, ?_⟩, ?_, ?_, ?_⟩
      · rw [hh]; exact hnd
      · rw [hh, hn]; exact hbound
      · intro b u h1 h2
        rw [hp'] at h1
        simp at h1
      · rw [hg]; exact hgm
      · rw [hg]; exact hgc
    · refine ⟨⟨?_, ?_⟩, ?_, ?_, ?_⟩
      · rw [hh, heapSet_keys]; exact hnd
      · rw [hh, heapSet_keys, hn]; exact hbound
      · intro b v h1 h2
        rw [hp'] at h1
        by_cases hcd : canDropAfterSpin t = true
        · rw [if_pos hcd] at h1
          simp at h1
        · rw [if_neg hcd] at h1
          injection h1 with hab
          subst hab
          rw [hh, heapGet_heapSet_self s.heapT a t _ hgt] at h2
          injection h2 with h2
          subst h2
          exact ⟨⟨m, hcm⟩, ⟨c, hcv⟩⟩
      · rw [hg]; exact hgm
      · rw [hg]; exact hgc
  · intro r s s' hInv he
    obtain ⟨⟨hnd, hbound⟩, hpl, hgm, hgc⟩ := hInv
    obtain ⟨e1, e2, e3, -, hd⟩ := goThroughExit_inv r s s' he
    rcases hd with ⟨a, t, m, -, -, -, -, hh, -⟩ | ⟨t, m, -, -, -, hh, -⟩
    · refine ⟨⟨?_, ?_⟩, ?_, ?_, ?_⟩
      · rw [hh]
        exact hnd.sublist ((heapDel_sublist s.heapT a).map Prod.fst)
      · rw [hh, e3]
        intro k hk
        exact hbound k
          (((heapDel_sublist s.heapT a).map Prod.fst).subset hk)
      · intro b u h1 h2
        rw [e1] at h1
        rw [hh] at h2
        by_cases hba : b = a
        · subst hba
          rw [heapGet_heapDel_self s.heapT b hnd] at h2
          simp at h2
        · rw [heapGet_heapDel_ne s.heapT a b hba] at h2
          exact hpl b u h1 h2
      · rw [e2]; exact hgm
      · rw [e2]; exact hgc
    · refine ⟨⟨?_, ?_⟩, ?_, ?_, ?_⟩
      · rw [hh]; exact hnd
      · rw [hh, e3]; exact hbound
      · intro b u h1 h2
        rw [e1] at h1
        rw [hh] at h2
        exact hpl b u h1 h2
      · rw [e2]; exact hgm
      · rw [e2]; exact hgc

/-- Witness for C10: the invariant of the initial state carried through
the concrete first lock() of a fresh Mutex. -/
theorem c10_pointed_turnstile_nonnull_witness : Inv sAfterFirstLock :=
  c10_pointed_turnstile_nonnull.2.1 0 mutexInit sAfterFirstLock
    LockOutcome.acquiredFast c10_pointed_turnstile_nonnull.1 rfl

end Turnstiles
